import Mathlib

/-!
Verification of the habitat-lab / habitat_baselines RL trainer core against
its specification.  The definitions below are shallow embeddings of:

* `habitat/config/read_write.py` — the scoped config mutability window;
* `habitat_baselines/common/base_trainer.py` — `BaseRLTrainer.__init__`,
  `percent_done`, `is_done`, `should_checkpoint`, `_pause_envs`, and the
  checkpoint polling loop of `BaseTrainer.eval`.

Machine integers are modelled as `Int`/`Nat`; Python float arithmetic on
progress fractions is modelled with `ℚ` (all the quantities involved are
exact ratios of integers); Python exceptions (`ZeroDivisionError`,
`RuntimeError`, `AssertionError`) are modelled with `Except`/`Option`
error values.
-/

namespace Habitat

/-! ### Config mutability scope (`habitat/config/read_write.py`)

An OmegaConf container carries two node-local flags, `readonly` and
`struct`, each of which can be `None` (inherit), `True` or `False`; we
model them as `Option Bool`.  The remaining payload of the configuration
is opaque to `read_write`; we keep it as an association list so that a
body can mutate it. -/

structure Cfg where
  readonly : Option Bool
  struct : Option Bool
  data : List (String × Int)
deriving DecidableEq

/-- Models `OmegaConf.set_readonly(config, b)`. -/
def set_readonly (c : Cfg) (b : Option Bool) : Cfg :=
  { c with readonly := b }

/-- Models `OmegaConf.set_struct(config, b)`. -/
def set_struct (c : Cfg) (b : Option Bool) : Cfg :=
  { c with struct := b }

/-- Models `config._get_node_flag("readonly")`. -/
def get_node_flag_readonly (c : Cfg) : Option Bool :=
  c.readonly

/-- Models `config._get_node_flag("struct")`. -/
def get_node_flag_struct (c : Cfg) : Option Bool :=
  c.struct

/-- The unlocking performed on entry to the `read_write` scope:
`OmegaConf.set_struct(config, False)` followed by
`OmegaConf.set_readonly(config, False)`. -/
def rw_unlock (c : Cfg) : Cfg :=
  set_readonly (set_struct c (some false)) (some false)

/-- The body of a `with read_write(config):` block.  It receives the
unlocked configuration and produces the configuration state at scope
exit together with `some e` when it raised the exception `e` (the state
then is the one at the moment of the raise). -/
def RWBody (ε : Type) : Type := Cfg → Cfg × Option ε

/-- Embeds `read_write` (`habitat/config/read_write.py`): store the two node
flags, unlock, run the body, and in a `finally` block restore
`readonly` first and `struct` second.  The result is the configuration
state after the scope together with the propagated exception, if any. -/
def read_write (body : RWBody ε) (config : Cfg) : Cfg × Option ε :=
  let prev_state_readonly := get_node_flag_readonly config
  let prev_state_struct := get_node_flag_struct config
  let res := body (rw_unlock config)
  (set_struct (set_readonly res.1 prev_state_readonly) prev_state_struct, res.2)

/-- A Python value passed to `read_write`: either an OmegaConf
`Container` or anything else (modelled by an opaque payload). -/
inductive PyVal where
  | container (c : Cfg)
  | notContainer (payload : Int)
deriving DecidableEq

/-- Errors that can escape `read_write`: the failure of
`assert isinstance(config, Container)`, or an exception raised by the
body. -/
inductive RWError (ε : Type) where
  | assertionError
  | bodyError (e : ε)
deriving DecidableEq

/-- Embeds `read_write` including its leading
`assert isinstance(config, Container)`: on a non-container argument the
assertion fails before any flag is read or written, and the argument is
returned untouched. -/
def read_write_checked (body : RWBody ε) (v : PyVal) : PyVal × Option (RWError ε) :=
  match v with
  | .notContainer p => (.notContainer p, some .assertionError)
  | .container c =>
      let r := read_write body c
      (.container r.1, r.2.map .bodyError)

end Habitat

namespace Habitat

/-- C4: `read_write` unlocks both flags for the body and, on every exit
path (normal return or an exception raised by the body), restores the
exact `readonly` and `struct` flag values observed at entry, for every
starting combination of flags; the exception, when present, propagates
unchanged. -/
theorem read_write_restores_entry_flags (ε : Type) (body : RWBody ε) (config : Cfg) :
    get_node_flag_readonly (rw_unlock config) = some false ∧
    get_node_flag_struct (rw_unlock config) = some false ∧
    get_node_flag_readonly (read_write body config).1 = get_node_flag_readonly config ∧
    get_node_flag_struct (read_write body config).1 = get_node_flag_struct config ∧
    (read_write body config).2 = (body (rw_unlock config)).2 :=
  ⟨rfl, rfl, rfl, rfl, rfl⟩

/-- C10: on any argument that is not a `Container`, `read_write` fails
with an `AssertionError` and the argument is returned unchanged — no
flag of it is read or modified. -/
theorem read_write_checked_not_container (ε : Type) (body : RWBody ε) (p : Int) :
    read_write_checked body (.notContainer p) = (.notContainer p, some .assertionError) :=
  rfl

/-! ### Trainer configuration and `BaseRLTrainer.__init__`

Only the four config fields read by the excerpted trainer code are
modelled; `-1` is the "unset" sentinel for all of them. -/

structure RLConfig where
  NUM_UPDATES : Int
  TOTAL_NUM_STEPS : Int
  NUM_CHECKPOINTS : Int
  CHECKPOINT_INTERVAL : Int
deriving DecidableEq

/-- The mutable trainer attributes set up by `BaseRLTrainer.__init__`.
`_last_checkpoint_percent` is a Python float holding exact ratios of
integers, modelled as `ℚ`. -/
structure BaseRLTrainerState where
  config : RLConfig
  flush_secs : Int
  num_updates_done : Nat
  num_steps_done : Nat
  last_checkpoint_percent : ℚ
deriving DecidableEq

/-- The four `RuntimeError`s that `BaseRLTrainer.__init__` can raise,
each carrying the two offending field values. -/
inductive InitError where
  | updatesBothSpecified (numUpdates totalNumSteps : Int)
  | updatesNeitherSpecified (numUpdates totalNumSteps : Int)
  | checkpointsBothSpecified (numCheckpoints checkpointInterval : Int)
  | checkpointsNeitherSpecified (numCheckpoints checkpointInterval : Int)
deriving DecidableEq

/-- The formatted `RuntimeError` message of each construction failure,
mirroring the format strings in `BaseRLTrainer.__init__`. -/
def InitError.message : InitError → String
  | .updatesBothSpecified v1 v2 =>
      "NUM_UPDATES and TOTAL_NUM_STEPS are both specified.  One must be -1.\n NUM_UPDATES: "
        ++ toString v1 ++ " TOTAL_NUM_STEPS: " ++ toString v2
  | .updatesNeitherSpecified v1 v2 =>
      "One of NUM_UPDATES and TOTAL_NUM_STEPS must be specified.\n NUM_UPDATES: "
        ++ toString v1 ++ " TOTAL_NUM_STEPS: " ++ toString v2
  | .checkpointsBothSpecified v1 v2 =>
      "NUM_CHECKPOINTS and CHECKPOINT_INTERVAL are both specified.  One must be -1.\n NUM_CHECKPOINTS: "
        ++ toString v1 ++ " CHECKPOINT_INTERVAL: " ++ toString v2
  | .checkpointsNeitherSpecified v1 v2 =>
      "One of NUM_CHECKPOINTS and CHECKPOINT_INTERVAL must be specified NUM_CHECKPOINTS: "
        ++ toString v1 ++ " CHECKPOINT_INTERVAL: " ++ toString v2

/-- The pair of mutually-exclusive config fields each failure is about. -/
def InitError.conflictingFields : InitError → String × String
  | .updatesBothSpecified _ _ => ("NUM_UPDATES", "TOTAL_NUM_STEPS")
  | .updatesNeitherSpecified _ _ => ("NUM_UPDATES", "TOTAL_NUM_STEPS")
  | .checkpointsBothSpecified _ _ => ("NUM_CHECKPOINTS", "CHECKPOINT_INTERVAL")
  | .checkpointsNeitherSpecified _ _ => ("NUM_CHECKPOINTS", "CHECKPOINT_INTERVAL")

/-- Substring search on character lists: prefix test. -/
def isPrefixOfChars : List Char → List Char → Bool
  | [], _ => true
  | _ :: _, [] => false
  | a :: as, b :: bs => a == b && isPrefixOfChars as bs

/-- Substring search on character lists. -/
def containsChars (needle : List Char) : List Char → Bool
  | [] => isPrefixOfChars needle []
  | b :: bs => isPrefixOfChars needle (b :: bs) || containsChars needle bs

/-- Tests that `needle` occurs as a contiguous substring of `hay`. -/
def strContains (hay needle : String) : Bool :=
  containsChars needle.data hay.data

theorem isPrefixOfChars_append (n l1 l2 : List Char)
    (h : isPrefixOfChars n l1 = true) : isPrefixOfChars n (l1 ++ l2) = true := by
  induction n generalizing l1 with
  | nil => rfl
  | cons a as ih =>
    cases l1 with
    | nil => simp [isPrefixOfChars] at h
    | cons b bs =>
      simp only [isPrefixOfChars, Bool.and_eq_true] at h
      simp only [List.cons_append, isPrefixOfChars, Bool.and_eq_true]
      exact ⟨h.1, ih bs h.2⟩

theorem containsChars_append_left (n l1 l2 : List Char)
    (h : containsChars n l1 = true) : containsChars n (l1 ++ l2) = true := by
  induction l1 with
  | nil =>
    cases n with
    | nil =>
      cases l2 with
      | nil => rfl
      | cons c cs => simp [containsChars, isPrefixOfChars]
    | cons a as => simp [containsChars, isPrefixOfChars] at h
  | cons b bs ih =>
    simp only [containsChars, Bool.or_eq_true] at h
    simp only [List.cons_append, containsChars, Bool.or_eq_true]
    rcases h with h | h
    · exact Or.inl (isPrefixOfChars_append n (b :: bs) l2 h)
    · exact Or.inr (ih h)

theorem strContains_append_left (s1 s2 needle : String)
    (h : strContains s1 needle = true) : strContains (s1 ++ s2) needle = true := by
  unfold strContains at h ⊢
  rw [String.data_append]
  exact containsChars_append_left needle.data s1.data s2.data h

/-- Every construction-failure message literally contains the names of
both conflicting config fields. -/
theorem InitError.message_names_both (e : InitError) :
    strContains e.message e.conflictingFields.1 = true ∧
    strContains e.message e.conflictingFields.2 = true := by
  cases e <;>
    · simp only [InitError.message, InitError.conflictingFields]
      refine ⟨?_, ?_⟩ <;>
        · rw [String.append_assoc, String.append_assoc]
          exact strContains_append_left _ _ _ (by decide)

/-- Embeds `BaseRLTrainer.__init__`: sets up the bookkeeping attributes and
raises a `RuntimeError` unless exactly one field of each
mutually-exclusive pair (`NUM_UPDATES`/`TOTAL_NUM_STEPS`,
`NUM_CHECKPOINTS`/`CHECKPOINT_INTERVAL`) differs from the `-1`
sentinel.  The checks run in source order. -/
def BaseRLTrainer.init (config : RLConfig) : Except InitError BaseRLTrainerState :=
  if config.NUM_UPDATES ≠ -1 ∧ config.TOTAL_NUM_STEPS ≠ -1 then
    .error (.updatesBothSpecified config.NUM_UPDATES config.TOTAL_NUM_STEPS)
  else if config.NUM_UPDATES = -1 ∧ config.TOTAL_NUM_STEPS = -1 then
    .error (.updatesNeitherSpecified config.NUM_UPDATES config.TOTAL_NUM_STEPS)
  else if config.NUM_CHECKPOINTS ≠ -1 ∧ config.CHECKPOINT_INTERVAL ≠ -1 then
    .error (.checkpointsBothSpecified config.NUM_CHECKPOINTS config.CHECKPOINT_INTERVAL)
  else if config.NUM_CHECKPOINTS = -1 ∧ config.CHECKPOINT_INTERVAL = -1 then
    .error (.checkpointsNeitherSpecified config.NUM_CHECKPOINTS config.CHECKPOINT_INTERVAL)
  else
    .ok { config := config, flush_secs := 30, num_updates_done := 0,
          num_steps_done := 0, last_checkpoint_percent := -1 }

theorem BaseRLTrainer.init_isOk_iff (c : RLConfig) :
    (BaseRLTrainer.init c).isOk = true ↔
      (((c.NUM_UPDATES ≠ -1) ↔ (c.TOTAL_NUM_STEPS = -1)) ∧
       ((c.NUM_CHECKPOINTS ≠ -1) ↔ (c.CHECKPOINT_INTERVAL = -1))) := by
  unfold BaseRLTrainer.init
  split_ifs with h1 h2 h3 h4 <;> simp only [Except.isOk] <;>
    constructor <;> intro h <;> tauto

end Habitat

namespace Habitat

/-- C6: `BaseRLTrainer` construction succeeds exactly when one member
of each mutually-exclusive pair (`NUM_UPDATES`/`TOTAL_NUM_STEPS`,
`NUM_CHECKPOINTS`/`CHECKPOINT_INTERVAL`) is non-sentinel; whenever a
pair is violated (both set or both unset) it fails with the
corresponding `RuntimeError`, whose message names both conflicting
fields. -/
theorem baseRLTrainer_init_validation (c : RLConfig) :
    ((BaseRLTrainer.init c).isOk = true ↔
      (((c.NUM_UPDATES ≠ -1) ↔ (c.TOTAL_NUM_STEPS = -1)) ∧
       ((c.NUM_CHECKPOINTS ≠ -1) ↔ (c.CHECKPOINT_INTERVAL = -1)))) ∧
    (c.NUM_UPDATES ≠ -1 → c.TOTAL_NUM_STEPS ≠ -1 →
      BaseRLTrainer.init c =
        .error (.updatesBothSpecified c.NUM_UPDATES c.TOTAL_NUM_STEPS)) ∧
    (c.NUM_UPDATES = -1 → c.TOTAL_NUM_STEPS = -1 →
      BaseRLTrainer.init c =
        .error (.updatesNeitherSpecified c.NUM_UPDATES c.TOTAL_NUM_STEPS)) ∧
    (((c.NUM_UPDATES ≠ -1) ↔ (c.TOTAL_NUM_STEPS = -1)) →
      c.NUM_CHECKPOINTS ≠ -1 → c.CHECKPOINT_INTERVAL ≠ -1 →
      BaseRLTrainer.init c =
        .error (.checkpointsBothSpecified c.NUM_CHECKPOINTS c.CHECKPOINT_INTERVAL)) ∧
    (((c.NUM_UPDATES ≠ -1) ↔ (c.TOTAL_NUM_STEPS = -1)) →
      c.NUM_CHECKPOINTS = -1 → c.CHECKPOINT_INTERVAL = -1 →
      BaseRLTrainer.init c =
        .error (.checkpointsNeitherSpecified c.NUM_CHECKPOINTS c.CHECKPOINT_INTERVAL)) ∧
    (∀ e, BaseRLTrainer.init c = .error e →
      strContains e.message e.conflictingFields.1 = true ∧
      strContains e.message e.conflictingFields.2 = true) := by
  refine ⟨BaseRLTrainer.init_isOk_iff c, ?_, ?_, ?_, ?_, fun e _ => InitError.message_names_both e⟩ <;>
    · intros
      unfold BaseRLTrainer.init
      split_ifs <;> first | rfl | tauto

/-- Witness for C6: a config with both `NUM_UPDATES` and
`TOTAL_NUM_STEPS` set fails construction with the expected error. -/
theorem baseRLTrainer_init_validation_witness :
    BaseRLTrainer.init ⟨100, 100, 10, -1⟩ =
      .error (.updatesBothSpecified 100 100) :=
  (baseRLTrainer_init_validation ⟨100, 100, 10, -1⟩).2.1 (by decide) (by decide)

/-! ### Progress tracker and checkpoint scheduler

Python raises `ZeroDivisionError` on division or modulo by zero, so the
trainer queries that can divide are modelled in `Except`. -/

inductive PyError where
  | zeroDivisionError
deriving DecidableEq

instance (ε α : Type) [DecidableEq ε] [DecidableEq α] : DecidableEq (Except ε α)
  | .error a, .error b =>
      if h : a = b then .isTrue (by rw [h]) else .isFalse (by simp [h])
  | .error _, .ok _ => .isFalse (by simp)
  | .ok _, .error _ => .isFalse (by simp)
  | .ok a, .ok b =>
      if h : a = b then .isTrue (by rw [h]) else .isFalse (by simp [h])

/-- Embeds `BaseRLTrainer.percent_done`: `num_updates_done / NUM_UPDATES` when
`NUM_UPDATES != -1`, else `num_steps_done / TOTAL_NUM_STEPS`; a zero
divisor raises `ZeroDivisionError`. -/
def percent_done (s : BaseRLTrainerState) : Except PyError ℚ :=
  if s.config.NUM_UPDATES ≠ -1 then
    if s.config.NUM_UPDATES = 0 then .error .zeroDivisionError
    else .ok ((s.num_updates_done : ℚ) / (s.config.NUM_UPDATES : ℚ))
  else
    if s.config.TOTAL_NUM_STEPS = 0 then .error .zeroDivisionError
    else .ok ((s.num_steps_done : ℚ) / (s.config.TOTAL_NUM_STEPS : ℚ))

/-- Embeds `BaseRLTrainer.is_done`: `percent_done() >= 1.0`. -/
def is_done (s : BaseRLTrainerState) : Except PyError Bool :=
  (percent_done s).map (fun pd => decide (pd ≥ 1))

/-- Embeds `BaseRLTrainer.should_checkpoint`.  Returns the boolean result and
the (possibly updated) trainer state.  In count mode the local
`checkpoint_every = 1 / NUM_CHECKPOINTS` is inlined into its only use.
Python `%` on integers is floor modulo, i.e. `Int.fmod`, and raises on
a zero right operand. -/
def should_checkpoint (s : BaseRLTrainerState) : Except PyError (Bool × BaseRLTrainerState) :=
  if s.config.NUM_CHECKPOINTS ≠ -1 then
    if s.config.NUM_CHECKPOINTS = 0 then .ok (false, s)
    else
      match percent_done s with
      | .error e => .error e
      | .ok pd =>
          if s.last_checkpoint_percent + 1 / (s.config.NUM_CHECKPOINTS : ℚ) < pd then
            .ok (true, { s with last_checkpoint_percent := pd })
          else
            .ok (false, s)
  else
    if s.config.CHECKPOINT_INTERVAL = 0 then .error .zeroDivisionError
    else .ok ((Int.fmod (s.num_updates_done : Int) s.config.CHECKPOINT_INTERVAL == 0), s)

end Habitat

namespace Habitat

/-- C7: `percent_done` is `num_updates_done / NUM_UPDATES` in
update-count mode and `num_steps_done / TOTAL_NUM_STEPS` otherwise
(given the positive-target caller contract), and `is_done` is true iff
`percent_done() >= 1.0`, the boundary value `1.0` counting as done. -/
theorem percent_done_is_done_spec (s : BaseRLTrainerState) :
    (s.config.NUM_UPDATES ≠ -1 → s.config.NUM_UPDATES ≠ 0 →
      percent_done s = .ok ((s.num_updates_done : ℚ) / (s.config.NUM_UPDATES : ℚ))) ∧
    (s.config.NUM_UPDATES = -1 → s.config.TOTAL_NUM_STEPS ≠ 0 →
      percent_done s = .ok ((s.num_steps_done : ℚ) / (s.config.TOTAL_NUM_STEPS : ℚ))) ∧
    (∀ pd, percent_done s = .ok pd → (is_done s = .ok true ↔ pd ≥ 1)) ∧
    (∀ pd, percent_done s = .ok pd → pd = 1 → is_done s = .ok true) := by
  refine ⟨?_, ?_, ?_, ?_⟩
  · intro h1 h2
    unfold percent_done
    rw [if_pos h1, if_neg h2]
  · intro h1 h2
    unfold percent_done
    rw [if_neg (by simp [h1]), if_neg h2]
  · intro pd hpd
    unfold is_done
    rw [hpd]
    simp [Except.map]
  · intro pd hpd h1
    unfold is_done
    rw [hpd, h1]
    simp [Except.map]

/-- Witness for C7 at a concrete done trainer: four of four updates
finished means `percent_done` is exactly `1` and `is_done` is true. -/
theorem percent_done_is_done_spec_witness :
    is_done ⟨⟨4, -1, 2, -1⟩, 30, 4, 0, -1⟩ = .ok true := by
  have h := percent_done_is_done_spec ⟨⟨4, -1, 2, -1⟩, 30, 4, 0, -1⟩
  have hpd : percent_done ⟨⟨4, -1, 2, -1⟩, 30, 4, 0, -1⟩ = .ok 1 := by
    rw [h.1 (by decide) (by decide)]
    norm_num
  exact h.2.2.2 1 hpd rfl

/-- C3: in checkpoint-by-count mode, `NUM_CHECKPOINTS = 0` always
yields `false` without performing the division (and without even
querying the progress fraction); otherwise the call returns true
exactly when `last_checkpoint_percent + 1/NUM_CHECKPOINTS <
percent_done()`, advancing `last_checkpoint_percent` to the current
`percent_done()` on a true return and leaving the state untouched on a
false return. -/
theorem should_checkpoint_count_mode (s : BaseRLTrainerState)
    (hmode : s.config.NUM_CHECKPOINTS ≠ -1) :
    (s.config.NUM_CHECKPOINTS = 0 → should_checkpoint s = .ok (false, s)) ∧
    (∀ pd, s.config.NUM_CHECKPOINTS ≠ 0 → percent_done s = .ok pd →
      ((s.last_checkpoint_percent + 1 / (s.config.NUM_CHECKPOINTS : ℚ) < pd →
          should_checkpoint s = .ok (true, { s with last_checkpoint_percent := pd })) ∧
       (¬ s.last_checkpoint_percent + 1 / (s.config.NUM_CHECKPOINTS : ℚ) < pd →
          should_checkpoint s = .ok (false, s)))) := by
  constructor
  · intro h0
    unfold should_checkpoint
    rw [if_pos hmode, if_pos h0]
  · intro pd hNC0 hpd
    unfold should_checkpoint
    rw [if_pos hmode, if_neg hNC0, hpd]
    constructor
    · intro hlt
      show (if s.last_checkpoint_percent + 1 / (s.config.NUM_CHECKPOINTS : ℚ) < pd then
          (Except.ok (true, { s with last_checkpoint_percent := pd }) :
            Except PyError (Bool × BaseRLTrainerState))
        else .ok (false, s)) = _
      rw [if_pos hlt]
    · intro hlt
      show (if s.last_checkpoint_percent + 1 / (s.config.NUM_CHECKPOINTS : ℚ) < pd then
          (Except.ok (true, { s with last_checkpoint_percent := pd }) :
            Except PyError (Bool × BaseRLTrainerState))
        else .ok (false, s)) = _
      rw [if_neg hlt]

/-- Witness for C3: with `NUM_CHECKPOINTS = 4` and a quarter of the
updates done, the scheduler triggers and advances the checkpoint
cursor to `1/4`. -/
theorem should_checkpoint_count_mode_witness :
    should_checkpoint ⟨⟨4, -1, 4, -1⟩, 30, 1, 0, -1⟩ =
      .ok (true, ⟨⟨4, -1, 4, -1⟩, 30, 1, 0, 1/4⟩) := by
  have h := should_checkpoint_count_mode ⟨⟨4, -1, 4, -1⟩, 30, 1, 0, -1⟩ (by decide)
  have hpd : percent_done ⟨⟨4, -1, 4, -1⟩, 30, 1, 0, -1⟩ = .ok (1/4) := by
    unfold percent_done
    rw [if_pos (by decide), if_neg (by decide)]
    norm_num
  exact (h.2 (1/4) (by decide) hpd).1 (by norm_num)

/-- C5 counterexample: `CHECKPOINT_INTERVAL = 0` is a legal
interval-mode config (construction succeeds), yet `should_checkpoint`
raises `ZeroDivisionError` instead of returning a boolean. -/
theorem should_checkpoint_interval_zero_counterexample :
    (BaseRLTrainer.init ⟨10, -1, -1, 0⟩).isOk = true ∧
    (⟨10, -1, -1, 0⟩ : RLConfig).CHECKPOINT_INTERVAL ≠ -1 ∧
    should_checkpoint ⟨⟨10, -1, -1, 0⟩, 30, 0, 0, -1⟩ = .error .zeroDivisionError ∧
    (should_checkpoint ⟨⟨10, -1, -1, 0⟩, 30, 0, 0, -1⟩).isOk = false := by
  decide

/-- C5 (amended): in checkpoint-by-interval mode of a validly
constructed config, with a nonzero `CHECKPOINT_INTERVAL`,
`should_checkpoint` returns true exactly when
`num_updates_done mod CHECKPOINT_INTERVAL == 0` (Python floor modulo)
and never modifies the trainer state; `CHECKPOINT_INTERVAL = 0` raises
`ZeroDivisionError` instead. -/
theorem should_checkpoint_interval_mode (s : BaseRLTrainerState)
    (hvalid : (BaseRLTrainer.init s.config).isOk = true)
    (hmode : s.config.CHECKPOINT_INTERVAL ≠ -1)
    (hzero : s.config.CHECKPOINT_INTERVAL ≠ 0) :
    should_checkpoint s =
      .ok ((Int.fmod (s.num_updates_done : Int) s.config.CHECKPOINT_INTERVAL == 0), s) ∧
    ((should_checkpoint s = .ok (true, s)) ↔
      Int.fmod (s.num_updates_done : Int) s.config.CHECKPOINT_INTERVAL = 0) := by
  have hNC : s.config.NUM_CHECKPOINTS = -1 := by
    have h := (BaseRLTrainer.init_isOk_iff s.config).mp hvalid
    tauto
  have h1 : should_checkpoint s =
      .ok ((Int.fmod (s.num_updates_done : Int) s.config.CHECKPOINT_INTERVAL == 0), s) := by
    unfold should_checkpoint
    rw [if_neg (by simp [hNC]), if_neg hzero]
  refine ⟨h1, ?_⟩
  rw [h1]
  simp [beq_iff_eq]

/-- Witness for C5 (amended): six updates with interval three trigger a
checkpoint and leave the state unchanged. -/
theorem should_checkpoint_interval_mode_witness :
    should_checkpoint ⟨⟨10, -1, -1, 3⟩, 30, 6, 0, -1⟩ =
      .ok (true, ⟨⟨10, -1, -1, 3⟩, 30, 6, 0, -1⟩) := by
  have h := should_checkpoint_interval_mode ⟨⟨10, -1, -1, 3⟩, 30, 6, 0, -1⟩
    (by decide) (by decide) (by decide)
  exact h.2.mpr (by decide)

/-! ### Vectorized environment pauser (`BaseRLTrainer._pause_envs`)

Per-environment tensors are modelled as lists indexed along the batch
dimension; the vectorized-environment handle is reduced to its
environment count plus the record of `pause_at` requests issued. -/

structure EnvsHandle where
  num_envs : Nat
  paused_calls : List Nat
deriving DecidableEq

/-- Models `envs.pause_at(idx)`: records the pause request sent to the
external environment collaborator. -/
def pause_at (e : EnvsHandle) (idx : Nat) : EnvsHandle :=
  { e with paused_calls := e.paused_calls ++ [idx] }

/-- The argument/result bundle of `_pause_envs`: the environment handle
and every auxiliary per-environment array. -/
structure PauseArgs (α : Type) where
  envs : EnvsHandle
  test_recurrent_hidden_states : List α
  not_done_masks : List α
  current_episode_reward : List α
  prev_actions : List α
  batch : List (String × List α)
  rgb_frames : List (List α)
deriving DecidableEq

/-- The surviving-position list built by the removal loop of
`_pause_envs`: `state_index = list(range(envs.num_envs))`, then
`state_index.pop(idx)` for `idx` in `reversed(envs_to_pause)`
(`List.eraseIdx` is Python `list.pop` at an in-range index). -/
def pauseStateIndex (num_envs : Nat) (envs_to_pause : List Nat) : List Nat :=
  envs_to_pause.reverse.foldl (fun si idx => si.eraseIdx idx) (List.range num_envs)

/-- Python advanced indexing `t[state_index]` along the batch
dimension, which is also what the comprehension
`[rgb_frames[i] for i in state_index]` computes. -/
def selectIdx (xs : List α) (idxs : List Nat) : List α :=
  idxs.filterMap (fun i => xs[i]?)

/-- Embeds `_pause_envs`.  The removal loop both pops `state_index` and calls
`envs.pause_at(idx)`; the two effects touch disjoint state and are
modelled as two folds over the same `reversed(envs_to_pause)`. -/
def pause_envs (envs_to_pause : List Nat) (a : PauseArgs α) : PauseArgs α :=
  if envs_to_pause.length > 0 then
    let state_index := pauseStateIndex a.envs.num_envs envs_to_pause
    { envs := envs_to_pause.reverse.foldl pause_at a.envs,
      test_recurrent_hidden_states :=
        selectIdx a.test_recurrent_hidden_states state_index,
      not_done_masks := selectIdx a.not_done_masks state_index,
      current_episode_reward := selectIdx a.current_episode_reward state_index,
      prev_actions := selectIdx a.prev_actions state_index,
      batch := a.batch.map (fun kv => (kv.1, selectIdx kv.2 state_index)),
      rgb_frames := selectIdx a.rgb_frames state_index }
  else a

/-- Specification-side selection: walk a list in position order and
keep exactly the entries whose absolute position satisfies `q`. -/
def keepPositions (q : Nat → Bool) : List α → List α
  | [] => []
  | x :: xs =>
      if q 0 then x :: keepPositions (fun i => q (i + 1)) xs
      else keepPositions (fun i => q (i + 1)) xs

/-- Specification-side description of pausing: the entries of `xs` at
the positions not listed in `envs_to_pause`, in their original
ascending order. -/
def survivors (envs_to_pause : List Nat) (xs : List α) : List α :=
  keepPositions (fun i => !(envs_to_pause.contains i)) xs

theorem keepPositions_true (xs : List α) (q : Nat → Bool) (hq : ∀ i, q i = true) :
    keepPositions q xs = xs := by
  induction xs generalizing q with
  | nil => rfl
  | cons x xs ih =>
    rw [keepPositions, if_pos (hq 0), ih (fun i => q (i + 1)) (fun i => hq (i + 1))]

theorem selectIdx_cons_zero (x : α) (xs : List α) (idxs : List Nat) :
    selectIdx (x :: xs) (0 :: idxs) = x :: selectIdx (x :: xs) idxs := by
  simp [selectIdx]

theorem selectIdx_cons_succ (x : α) (xs : List α) (idxs : List Nat) :
    selectIdx (x :: xs) (idxs.map Nat.succ) = selectIdx xs idxs := by
  unfold selectIdx
  rw [List.filterMap_map]
  congr 1
  funext i
  exact List.getElem?_cons_succ

theorem contains_true_iff (l : List Nat) (i : Nat) : l.contains i = true ↔ i ∈ l :=
  List.elem_iff

theorem contains_false_of_not_mem (l : List Nat) (i : Nat) (h : i ∉ l) :
    l.contains i = false := by
  rw [← Bool.not_eq_true, contains_true_iff]
  exact h

/-- Popping position `a` from the filtered range, when every index of
`rest` is above `a` (so nothing below position `a` has been filtered
out yet), removes exactly the element `a`. -/
theorem eraseIdx_filter_step (n a : Nat) (rest : List Nat) (ha : a < n)
    (hrest : ∀ b ∈ rest, a < b) :
    ((List.range n).filter (fun i => !(rest.contains i))).eraseIdx a =
      (List.range n).filter (fun i => !((a :: rest).contains i)) := by
  have hsplit : List.range n = List.range (a + 1) ++ List.range' (a + 1) (n - (a + 1)) := by
    have h := List.range'_append 0 (a + 1) (n - (a + 1)) 1
    rw [List.range_eq_range', List.range_eq_range']
    have h0 : 0 + 1 * (a + 1) = a + 1 := by omega
    rw [h0] at h
    have h1 : n - (a + 1) + (a + 1) = n := by omega
    rw [h1] at h
    exact h.symm
  have hqr : (List.range (a + 1)).filter (fun i => !(rest.contains i)) = List.range (a + 1) := by
    apply List.filter_eq_self.mpr
    intro i hi
    rw [List.mem_range] at hi
    show (!(rest.contains i)) = true
    rw [contains_false_of_not_mem rest i (fun hmem => absurd (hrest i hmem) (by omega))]
    rfl
  have hhead : (List.range (a + 1)).filter (fun i => !((a :: rest).contains i)) =
      List.range a := by
    rw [List.range_succ, List.filter_append]
    have h1 : (List.range a).filter (fun i => !((a :: rest).contains i)) = List.range a := by
      apply List.filter_eq_self.mpr
      intro i hi
      rw [List.mem_range] at hi
      show (!((a :: rest).contains i)) = true
      have hnm : i ∉ a :: rest := by
        intro hmem
        rcases List.mem_cons.mp hmem with h | h
        · omega
        · exact absurd (hrest i h) (by omega)
      rw [contains_false_of_not_mem (a :: rest) i hnm]
      rfl
    have h2 : ([a] : List Nat).filter (fun i => !((a :: rest).contains i)) = [] := by
      have hc : ((a :: rest).contains a) = true :=
        (contains_true_iff (a :: rest) a).mpr (List.mem_cons_self a rest)
      simp [List.filter_cons, hc]
    rw [h1, h2, List.append_nil]
  have htail : (List.range' (a + 1) (n - (a + 1))).filter (fun i => !((a :: rest).contains i)) =
      (List.range' (a + 1) (n - (a + 1))).filter (fun i => !(rest.contains i)) := by
    apply List.filter_congr
    intro i hi
    rw [List.mem_range'_1] at hi
    show (!((a :: rest).contains i)) = (!(rest.contains i))
    rw [List.contains_cons]
    have hia : (i == a) = false := by
      rw [beq_eq_false_iff_ne]
      omega
    rw [hia, Bool.false_or]
  rw [hsplit, List.filter_append, List.filter_append, hqr, hhead, htail]
  rw [List.range_succ, List.append_assoc]
  rw [List.eraseIdx_append_of_length_le (le_of_eq (List.length_range a))]
  rw [List.length_range, Nat.sub_self]
  rw [List.singleton_append, List.eraseIdx_cons_zero]

/-- On a strictly ascending list of in-range indices, the pop loop of
`_pause_envs` computes exactly the ascending list of surviving
(non-paused) positions. -/
theorem pauseStateIndex_sorted (n : Nat) (p : List Nat) :
    List.Sorted (· < ·) p → (∀ i ∈ p, i < n) →
    pauseStateIndex n p = (List.range n).filter (fun i => !(p.contains i)) := by
  unfold pauseStateIndex
  rw [List.foldl_reverse]
  induction p with
  | nil =>
    intro _ _
    apply (List.filter_eq_self.mpr _).symm
    intro i _
    rfl
  | cons a rest ih =>
    intro hs hb
    have hsr := (List.sorted_cons.mp hs).2
    have har := (List.sorted_cons.mp hs).1
    have hbr : ∀ i ∈ rest, i < n := fun i hi => hb i (List.mem_cons_of_mem a hi)
    rw [List.foldr_cons, ih hsr hbr]
    exact eraseIdx_filter_step n a rest (hb a (List.mem_cons_self a rest)) har

/-- The gather at the filtered full index range is exactly the
position-order selection. -/
theorem selectIdx_range_filter (xs : List α) (q : Nat → Bool) :
    selectIdx xs ((List.range xs.length).filter q) = keepPositions q xs := by
  induction xs generalizing q with
  | nil => rfl
  | cons x xs ih =>
    show selectIdx (x :: xs) ((List.range (xs.length + 1)).filter q) = _
    rw [List.range_succ_eq_map, List.filter_cons]
    by_cases hq : q 0
    · rw [if_pos hq, List.filter_map, selectIdx_cons_zero, selectIdx_cons_succ]
      show x :: selectIdx xs (List.filter (fun i => q (i + 1)) (List.range xs.length)) =
        keepPositions q (x :: xs)
      rw [ih (fun i => q (i + 1)), keepPositions, if_pos hq]
    · rw [if_neg hq, List.filter_map, selectIdx_cons_succ]
      show selectIdx xs (List.filter (fun i => q (i + 1)) (List.range xs.length)) =
        keepPositions q (x :: xs)
      rw [ih (fun i => q (i + 1)), keepPositions, if_neg hq]

end Habitat

namespace Habitat

/-- C1 counterexample: the pause indices `[3, 1]` are distinct valid
positions of a 5-environment batch, merely not in ascending order, yet
`_pause_envs` keeps positions `{0, 2, 3}` instead of the surviving
positions `{0, 2, 4}`: the claimed guarantee fails for unsorted input
because the loop iterates `reversed(envs_to_pause)`, which is
descending only when the input was ascending. -/
theorem pause_envs_unsorted_counterexample :
    (3 : Nat) < 5 ∧ (1 : Nat) < 5 ∧ (3 : Nat) ≠ 1 ∧
    (pause_envs [3, 1]
      (⟨⟨5, []⟩, [10, 20, 30, 40, 50], [10, 20, 30, 40, 50], [10, 20, 30, 40, 50],
        [10, 20, 30, 40, 50], [("obs", [10, 20, 30, 40, 50])],
        [[10], [20], [30], [40], [50]]⟩ : PauseArgs Int)).test_recurrent_hidden_states =
      [10, 30, 40] ∧
    survivors [3, 1] ([10, 20, 30, 40, 50] : List Int) = [10, 30, 50] ∧
    (pause_envs [3, 1]
      (⟨⟨5, []⟩, [10, 20, 30, 40, 50], [10, 20, 30, 40, 50], [10, 20, 30, 40, 50],
        [10, 20, 30, 40, 50], [("obs", [10, 20, 30, 40, 50])],
        [[10], [20], [30], [40], [50]]⟩ : PauseArgs Int)).test_recurrent_hidden_states ≠
      survivors [3, 1] ([10, 20, 30, 40, 50] : List Int) := by
  decide

/-- C1 (amended): for every ascending list of distinct valid positions
`envs_to_pause` over a batch of `num_envs` live environments whose
auxiliary arrays all have length `num_envs`, `_pause_envs` returns
every auxiliary array (hidden states, not-done masks, reward
accumulator, previous actions, each observation tensor of the batch
dict, rgb frame lists) restricted to exactly the surviving non-paused
positions in their original ascending order — the same position
selection applied to every array, so all arrays stay aligned — and an
empty `envs_to_pause` returns the input unchanged. -/
theorem pause_envs_spec (α : Type) (envs_to_pause : List Nat) (a : PauseArgs α)
    (hsorted : List.Sorted (· < ·) envs_to_pause)
    (hbound : ∀ i ∈ envs_to_pause, i < a.envs.num_envs)
    (h1 : a.test_recurrent_hidden_states.length = a.envs.num_envs)
    (h2 : a.not_done_masks.length = a.envs.num_envs)
    (h3 : a.current_episode_reward.length = a.envs.num_envs)
    (h4 : a.prev_actions.length = a.envs.num_envs)
    (h5 : ∀ kv ∈ a.batch, (kv : String × List α).2.length = a.envs.num_envs)
    (h6 : a.rgb_frames.length = a.envs.num_envs) :
    (pause_envs envs_to_pause a).test_recurrent_hidden_states =
        survivors envs_to_pause a.test_recurrent_hidden_states ∧
    (pause_envs envs_to_pause a).not_done_masks =
        survivors envs_to_pause a.not_done_masks ∧
    (pause_envs envs_to_pause a).current_episode_reward =
        survivors envs_to_pause a.current_episode_reward ∧
    (pause_envs envs_to_pause a).prev_actions =
        survivors envs_to_pause a.prev_actions ∧
    (pause_envs envs_to_pause a).batch =
        a.batch.map (fun kv => (kv.1, survivors envs_to_pause kv.2)) ∧
    (pause_envs envs_to_pause a).rgb_frames =
        survivors envs_to_pause a.rgb_frames ∧
    (envs_to_pause = [] → pause_envs envs_to_pause a = a) := by
  have key : ∀ (β : Type) (xs : List β), xs.length = a.envs.num_envs →
      selectIdx xs (pauseStateIndex a.envs.num_envs envs_to_pause) =
        survivors envs_to_pause xs := by
    intro β xs hlen
    rw [pauseStateIndex_sorted a.envs.num_envs envs_to_pause hsorted hbound, ← hlen]
    exact selectIdx_range_filter xs _
  by_cases hp : envs_to_pause = []
  · subst hp
    have hid : ∀ (β : Type) (xs : List β), survivors ([] : List Nat) xs = xs := by
      intro β xs
      exact keepPositions_true xs _ (fun i => rfl)
    have hpe : pause_envs ([] : List Nat) a = a := by
      unfold pause_envs
      rw [if_neg (by simp)]
    rw [hpe]
    refine ⟨(hid _ _).symm, (hid _ _).symm, (hid _ _).symm, (hid _ _).symm, ?_,
      (hid _ _).symm, fun _ => rfl⟩
    conv_lhs => rw [← List.map_id a.batch]
    apply List.map_congr_left
    intro kv _
    rw [hid]
    rfl
  · have hpos : envs_to_pause.length > 0 := List.length_pos.mpr hp
    have hpe : pause_envs envs_to_pause a =
        { envs := envs_to_pause.reverse.foldl pause_at a.envs,
          test_recurrent_hidden_states :=
            selectIdx a.test_recurrent_hidden_states
              (pauseStateIndex a.envs.num_envs envs_to_pause),
          not_done_masks :=
            selectIdx a.not_done_masks (pauseStateIndex a.envs.num_envs envs_to_pause),
          current_episode_reward :=
            selectIdx a.current_episode_reward
              (pauseStateIndex a.envs.num_envs envs_to_pause),
          prev_actions :=
            selectIdx a.prev_actions (pauseStateIndex a.envs.num_envs envs_to_pause),
          batch := a.batch.map
            (fun kv => (kv.1, selectIdx kv.2 (pauseStateIndex a.envs.num_envs envs_to_pause))),
          rgb_frames :=
            selectIdx a.rgb_frames (pauseStateIndex a.envs.num_envs envs_to_pause) } := by
      unfold pause_envs
      rw [if_pos hpos]
    rw [hpe]
    refine ⟨key α _ h1, key α _ h2, key α _ h3, key α _ h4, ?_, key (List α) _ h6,
      fun h => absurd h hp⟩
    apply List.map_congr_left
    intro kv hkv
    rw [key α kv.2 (h5 kv hkv)]

/-- Witness for C1 (amended), at the worked example of the spec:
pausing the ascending index list `[1, 3]` of a 5-environment batch
with auxiliary arrays `[10, 20, 30, 40, 50]` keeps `[10, 30, 50]`. -/
theorem pause_envs_spec_witness :
    (pause_envs [1, 3]
      (⟨⟨5, []⟩, [10, 20, 30, 40, 50], [10, 20, 30, 40, 50], [10, 20, 30, 40, 50],
        [10, 20, 30, 40, 50], [("obs", [10, 20, 30, 40, 50])],
        [[10], [20], [30], [40], [50]]⟩ : PauseArgs Int)).test_recurrent_hidden_states =
      [10, 30, 50] := by
  have h := pause_envs_spec Int [1, 3]
    (⟨⟨5, []⟩, [10, 20, 30, 40, 50], [10, 20, 30, 40, 50], [10, 20, 30, 40, 50],
      [10, 20, 30, 40, 50], [("obs", [10, 20, 30, 40, 50])],
      [[10], [20], [30], [40], [50]]⟩ : PauseArgs Int)
    (by decide) (by decide) rfl rfl rfl rfl (by decide) rfl
  rw [h.1]
  decide

/-! ### Evaluation poller (`BaseTrainer.eval`, directory-polling branch)

The loop state carries `prev_ckpt_ind`, the success histogram dict
(an insertion-ordered association list, as Python dicts are), the
session history, and two instrumentation fields: the `time.sleep`
durations issued, and the number of `poll_checkpoint_folder` calls
made so far.  The changing contents of the checkpoint directory are
modelled by handing `poll` the call count alongside `prev_ckpt_ind`;
`hook` is the subclass `_eval_checkpoint`, reduced to the per-metric
success-counter dict it returns (the aggregated-stats dict only flows
into log files, which are not modelled). -/

structure EvalLoopState where
  prev_ckpt_ind : Int
  episode_success_histogram : List (String × (ℚ × Nat))
  episode_success_history : List (Int × ℚ)
  sleeps : List Nat
  poll_count : Nat
deriving DecidableEq

/-- Python dict assignment `d[k] = v` on an insertion-ordered dict with
unique keys: replace in place when the key is present, append
otherwise. -/
def dictSet : List (String × (ℚ × Nat)) → String → (ℚ × Nat) → List (String × (ℚ × Nat))
  | [], k, v => [(k, v)]
  | (k1, v1) :: t, k, v =>
      match k1 == k with
      | true => (k, v) :: t
      | false => (k1, v1) :: dictSet t k v

/-- One iteration of the histogram for-loop body of `eval`:
`if k not in hist: hist[k] = (0, 0)` then
`hist[k] = (hist[k][0] + v, hist[k][1] + 1)`. -/
def histStep (h : List (String × (ℚ × Nat))) (kv : String × ℚ) :
    List (String × (ℚ × Nat)) :=
  dictSet h kv.1
    (((List.lookup kv.1 h).getD (0, 0)).1 + kv.2, ((List.lookup kv.1 h).getD (0, 0)).2 + 1)

/-- The whole `for k, v in success_counter.items():` loop. -/
def updateHistogram (h : List (String × (ℚ × Nat))) (counter : List (String × ℚ)) :
    List (String × (ℚ × Nat)) :=
  counter.foldl histStep h

/-- Models `sum(v for v in success_counter.values()) / len(success_counter)`;
Python raises `ZeroDivisionError` on an empty counter. -/
def counterMean (counter : List (String × ℚ)) : Except PyError ℚ :=
  if counter.length = 0 then .error .zeroDivisionError
  else .ok ((counter.map Prod.snd).sum / (counter.length : ℚ))

/-- The outcome of one pass through the `while not over` body. -/
inductive IterResult where
  | next (s : EvalLoopState)
  | finished (s : EvalLoopState)
deriving DecidableEq

/-- One pass through the polling loop body: call
`poll_checkpoint_folder`, `time.sleep(2)`, exit when nothing was
found, otherwise run `_eval_checkpoint` on the found checkpoint, merge
its success counter into the histogram, and append
`(prev_ckpt_ind, mean success)` to the history. -/
def evalIter (poll : Nat → Int → Option (String × Int))
    (hook : String → Int → List (String × ℚ))
    (s : EvalLoopState) : Except PyError IterResult :=
  match poll s.poll_count s.prev_ckpt_ind with
  | none =>
      .ok (.finished { s with poll_count := s.poll_count + 1, sleeps := s.sleeps ++ [2] })
  | some (current_ckpt, ckpt_ind) =>
      let success_counter := hook current_ckpt ckpt_ind
      match counterMean success_counter with
      | .error e => .error e
      | .ok m =>
          .ok (.next
            { prev_ckpt_ind := ckpt_ind,
              episode_success_histogram :=
                updateHistogram s.episode_success_histogram success_counter,
              episode_success_history := s.episode_success_history ++ [(ckpt_ind, m)],
              sleeps := s.sleeps ++ [2],
              poll_count := s.poll_count + 1 })

/-- The `while not over` loop, fuel-indexed: `.ok (some s)` is normal
termination in state `s`, `.ok none` is fuel exhaustion, `.error` an
uncaught Python exception aborting the session. -/
def evalLoop (poll : Nat → Int → Option (String × Int))
    (hook : String → Int → List (String × ℚ)) :
    Nat → EvalLoopState → Except PyError (Option EvalLoopState)
  | 0, _ => .ok none
  | fuel + 1, s =>
      match evalIter poll hook s with
      | .error e => .error e
      | .ok (.finished s1) => .ok (some s1)
      | .ok (.next s1) => evalLoop poll hook fuel s1

/-- The loop state on entry: `prev_ckpt_ind = -1`, empty histogram and
history. -/
def evalInitState : EvalLoopState :=
  { prev_ckpt_ind := -1, episode_success_histogram := [],
    episode_success_history := [], sleeps := [], poll_count := 0 }

theorem lookup_dictSet_self (h : List (String × (ℚ × Nat))) (k : String) (v : ℚ × Nat) :
    List.lookup k (dictSet h k v) = some v := by
  induction h with
  | nil => simp [dictSet, List.lookup]
  | cons kv t ih =>
    obtain ⟨k1, v1⟩ := kv
    simp only [dictSet]
    cases hk1 : (k1 == k) with
    | true =>
      have hkeq : k1 = k := eq_of_beq hk1
      simp [List.lookup]
    | false =>
      have hb : (k == k1) = false := by
        rw [beq_eq_false_iff_ne]
        intro he
        subst he
        rw [beq_self_eq_true] at hk1
        cases hk1
      rw [List.lookup_cons, hb]
      exact ih

theorem lookup_dictSet_other (h : List (String × (ℚ × Nat))) (k k0 : String) (v : ℚ × Nat)
    (hne : k ≠ k0) : List.lookup k (dictSet h k0 v) = List.lookup k h := by
  have hb : (k == k0) = false := beq_eq_false_iff_ne.mpr hne
  induction h with
  | nil => simp [dictSet, List.lookup, hb]
  | cons kv t ih =>
    obtain ⟨k1, v1⟩ := kv
    simp only [dictSet]
    cases hk1 : (k1 == k0) with
    | true =>
      have hkeq : k1 = k0 := eq_of_beq hk1
      subst hkeq
      rw [List.lookup_cons, List.lookup_cons, hb]
    | false =>
      rw [List.lookup_cons, List.lookup_cons]
      cases hkk : (k == k1) with
      | true => rfl
      | false => exact ih

theorem lookup_histStep_self (h : List (String × (ℚ × Nat))) (k : String) (v : ℚ) :
    List.lookup k (histStep h (k, v)) =
      some (((List.lookup k h).getD (0, 0)).1 + v,
            ((List.lookup k h).getD (0, 0)).2 + 1) :=
  lookup_dictSet_self h k _

theorem lookup_histStep_other (h : List (String × (ℚ × Nat))) (k k0 : String) (v0 : ℚ)
    (hne : k ≠ k0) : List.lookup k (histStep h (k0, v0)) = List.lookup k h :=
  lookup_dictSet_other h k k0 _ hne

/-- Keys absent from the success counter keep their histogram entry. -/
theorem lookup_updateHistogram_not_mem (h : List (String × (ℚ × Nat)))
    (counter : List (String × ℚ)) (k : String) (hk : k ∉ counter.map Prod.fst) :
    List.lookup k (updateHistogram h counter) = List.lookup k h := by
  induction counter generalizing h with
  | nil => rfl
  | cons kv rest ih =>
    obtain ⟨k0, v0⟩ := kv
    rw [List.map_cons] at hk
    have hk0 : k ≠ k0 := by
      intro he
      exact hk (by rw [he]; exact List.mem_cons_self k0 _)
    have hkrest : k ∉ rest.map Prod.fst := fun hm => hk (List.mem_cons_of_mem _ hm)
    show List.lookup k (updateHistogram (histStep h (k0, v0)) rest) = _
    rw [ih (histStep h (k0, v0)) hkrest]
    exact lookup_histStep_other h k k0 v0 hk0

/-- Each key of the success counter has its histogram numerator
increased by the reported value and its denominator by one, starting
from `(0, 0)` on first appearance. -/
theorem lookup_updateHistogram_mem (h : List (String × (ℚ × Nat)))
    (counter : List (String × ℚ)) (k : String) (v : ℚ)
    (hnd : (counter.map Prod.fst).Nodup) (hmem : (k, v) ∈ counter) :
    List.lookup k (updateHistogram h counter) =
      some (((List.lookup k h).getD (0, 0)).1 + v,
            ((List.lookup k h).getD (0, 0)).2 + 1) := by
  induction counter generalizing h with
  | nil => cases hmem
  | cons kv rest ih =>
    obtain ⟨k0, v0⟩ := kv
    rw [List.map_cons] at hnd
    have hnd0 : k0 ∉ rest.map Prod.fst := (List.nodup_cons.mp hnd).1
    have hndr : (rest.map Prod.fst).Nodup := (List.nodup_cons.mp hnd).2
    rcases List.mem_cons.mp hmem with he | hm
    · injection he with hk hv
      subst hk
      subst hv
      show List.lookup k (updateHistogram (histStep h (k, v)) rest) = _
      rw [lookup_updateHistogram_not_mem (histStep h (k, v)) rest k hnd0]
      exact lookup_histStep_self h k v
    · have hk0 : k ≠ k0 := by
        intro he2
        subst he2
        exact hnd0 (List.mem_map_of_mem Prod.fst hm)
      show List.lookup k (updateHistogram (histStep h (k0, v0)) rest) = _
      rw [ih (histStep h (k0, v0)) hndr hm]
      rw [lookup_histStep_other h k k0 v0 hk0]

theorem evalIter_none_eq (poll : Nat → Int → Option (String × Int))
    (hook : String → Int → List (String × ℚ)) (s : EvalLoopState)
    (hnone : poll s.poll_count s.prev_ckpt_ind = none) :
    evalIter poll hook s = .ok (.finished
      { s with poll_count := s.poll_count + 1, sleeps := s.sleeps ++ [2] }) := by
  unfold evalIter
  rw [hnone]

theorem evalIter_some_eq (poll : Nat → Int → Option (String × Int))
    (hook : String → Int → List (String × ℚ)) (s : EvalLoopState) (p : String) (i : Int)
    (hsome : poll s.poll_count s.prev_ckpt_ind = some (p, i))
    (hne : hook p i ≠ []) :
    evalIter poll hook s = .ok (.next
      { prev_ckpt_ind := i,
        episode_success_histogram :=
          updateHistogram s.episode_success_histogram (hook p i),
        episode_success_history := s.episode_success_history ++
          [(i, ((hook p i).map Prod.snd).sum / ((hook p i).length : ℚ))],
        sleeps := s.sleeps ++ [2],
        poll_count := s.poll_count + 1 }) := by
  have hcm : counterMean (hook p i) =
      .ok (((hook p i).map Prod.snd).sum / ((hook p i).length : ℚ)) := by
    unfold counterMean
    rw [if_neg (by simpa [List.length_eq_zero] using hne)]
  unfold evalIter
  rw [hsome]
  dsimp only
  rw [hcm]

theorem evalIter_empty_counter_eq (poll : Nat → Int → Option (String × Int))
    (hook : String → Int → List (String × ℚ)) (s : EvalLoopState) (p : String) (i : Int)
    (hsome : poll s.poll_count s.prev_ckpt_ind = some (p, i))
    (hempty : hook p i = []) :
    evalIter poll hook s = .error .zeroDivisionError := by
  unfold evalIter
  rw [hsome]
  dsimp only
  rw [hempty]
  rfl

end Habitat

namespace Habitat

/-- C2 counterexample: a checkpoint directory whose first poll comes up
empty while a checkpoint is available from the second poll on.  The
loop nevertheless terminates right after the single empty poll — one
poll made, one 2-second sleep, nothing evaluated — so one empty poll
result does, by itself, end the polling loop; no retry happens. -/
theorem eval_single_empty_poll_ends_loop :
    evalLoop (fun count _ => if count = 0 then none else some ("ckpt.1.pth", 1))
        (fun _ _ => [("success", 1)]) 10 evalInitState =
      .ok (some { prev_ckpt_ind := -1, episode_success_histogram := [],
                  episode_success_history := [], sleeps := [2], poll_count := 1 }) := by
  decide

/-- C2 (amended): the poller sleeps the fixed 2 seconds once after
every poll, empty or successful; a poll that finds no checkpoint
immediately terminates the loop (there is no retry of an empty poll),
and a poll that finds a checkpoint whose evaluation reports a
nonempty success counter continues the loop with `prev_ckpt_ind`
advanced to that checkpoint index. -/
theorem eval_poll_loop_transitions (poll : Nat → Int → Option (String × Int))
    (hook : String → Int → List (String × ℚ)) (s : EvalLoopState) :
    (poll s.poll_count s.prev_ckpt_ind = none →
      evalIter poll hook s = .ok (.finished
        { s with poll_count := s.poll_count + 1, sleeps := s.sleeps ++ [2] }) ∧
      ∀ fuel, evalLoop poll hook (fuel + 1) s = .ok (some
        { s with poll_count := s.poll_count + 1, sleeps := s.sleeps ++ [2] })) ∧
    (∀ p i, poll s.poll_count s.prev_ckpt_ind = some (p, i) → hook p i ≠ [] →
      ∃ s1, evalIter poll hook s = .ok (.next s1) ∧
        s1.sleeps = s.sleeps ++ [2] ∧ s1.prev_ckpt_ind = i ∧
        s1.poll_count = s.poll_count + 1 ∧
        ∀ fuel, evalLoop poll hook (fuel + 1) s = evalLoop poll hook fuel s1) := by
  constructor
  · intro hnone
    have he := evalIter_none_eq poll hook s hnone
    refine ⟨he, fun fuel => ?_⟩
    show (match evalIter poll hook s with
      | .error e => (.error e : Except PyError (Option EvalLoopState))
      | .ok (.finished s1) => .ok (some s1)
      | .ok (.next s1) => evalLoop poll hook fuel s1) = _
    rw [he]
  · intro p i hsome hne
    have he := evalIter_some_eq poll hook s p i hsome hne
    refine ⟨_, he, rfl, rfl, rfl, fun fuel => ?_⟩
    show (match evalIter poll hook s with
      | .error e => (.error e : Except PyError (Option EvalLoopState))
      | .ok (.finished s1) => .ok (some s1)
      | .ok (.next s1) => evalLoop poll hook fuel s1) = _
    rw [he]

/-- Witness for C2 (amended): on a directory that never yields a
checkpoint, the very first iteration sleeps once and exits the loop. -/
theorem eval_poll_loop_transitions_witness :
    evalIter (fun _ _ => none) (fun _ _ => []) evalInitState =
      .ok (.finished { prev_ckpt_ind := -1, episode_success_histogram := [],
                       episode_success_history := [], sleeps := [2], poll_count := 1 }) := by
  have h := eval_poll_loop_transitions (fun _ _ => none) (fun _ _ => []) evalInitState
  exact (h.1 rfl).1

/-- C8: one evaluated checkpoint merges its success counter into the
running histogram — every reported metric has its numerator increased
by exactly the reported value and its denominator by exactly one,
starting from `(0, 0)` on first appearance, while absent keys are
untouched — and appends exactly the pair
`(checkpoint_index, mean success)` to the session history; the
histogram is only ever extended this way, never reset. -/
theorem eval_histogram_accumulation (poll : Nat → Int → Option (String × Int))
    (hook : String → Int → List (String × ℚ)) (s : EvalLoopState) (p : String) (i : Int)
    (hpoll : poll s.poll_count s.prev_ckpt_ind = some (p, i))
    (hne : hook p i ≠ [])
    (hnd : ((hook p i).map Prod.fst).Nodup) :
    evalIter poll hook s = .ok (.next
      { prev_ckpt_ind := i,
        episode_success_histogram :=
          updateHistogram s.episode_success_histogram (hook p i),
        episode_success_history := s.episode_success_history ++
          [(i, ((hook p i).map Prod.snd).sum / ((hook p i).length : ℚ))],
        sleeps := s.sleeps ++ [2],
        poll_count := s.poll_count + 1 }) ∧
    (∀ k v, (k, v) ∈ hook p i →
      List.lookup k (updateHistogram s.episode_success_histogram (hook p i)) =
        some (((List.lookup k s.episode_success_histogram).getD (0, 0)).1 + v,
              ((List.lookup k s.episode_success_histogram).getD (0, 0)).2 + 1)) ∧
    (∀ k, k ∉ (hook p i).map Prod.fst →
      List.lookup k (updateHistogram s.episode_success_histogram (hook p i)) =
        List.lookup k s.episode_success_histogram) :=
  ⟨evalIter_some_eq poll hook s p i hpoll hne,
   fun k v hm => lookup_updateHistogram_mem s.episode_success_histogram (hook p i) k v hnd hm,
   fun k hk => lookup_updateHistogram_not_mem s.episode_success_histogram (hook p i) k hk⟩

/-- Witness for C8, at the worked example of the spec: a second
checkpoint reporting success `0.0` after a first one reported `1.0`
turns the histogram entry into `(1.0, 2)`. -/
theorem eval_histogram_accumulation_witness :
    List.lookup "success"
      (updateHistogram [("success", ((1 : ℚ), 1))] [("success", (0 : ℚ))]) =
      some (1, 2) := by
  have h := eval_histogram_accumulation
    (fun count _ => if count = 0 then some ("ckpt.0.pth", 0) else
      if count = 1 then some ("ckpt.1.pth", 1) else none)
    (fun _ i => if i = 0 then [("success", 1)] else [("success", 0)])
    ⟨0, [("success", (1, 1))], [(0, 1)], [2], 1⟩ "ckpt.1.pth" 1 rfl (by decide) (by decide)
  have h2 : List.lookup "success"
      (updateHistogram [("success", ((1 : ℚ), 1))] [("success", (0 : ℚ))]) =
      some (((List.lookup "success" [("success", ((1 : ℚ), 1))]).getD (0, 0)).1 + 0,
            ((List.lookup "success" [("success", ((1 : ℚ), 1))]).getD (0, 0)).2 + 1) :=
    h.2.1 "success" 0 (by decide)
  rw [h2]
  simp [List.lookup]

/-- C9: the mean appended to the session history divides by the size of
the returned success counter with no guard: with a checkpoint found,
an empty counter makes the iteration abort the whole session with
`ZeroDivisionError` (the histogram loop over the empty counter having
changed nothing), while any nonempty counter completes the iteration
normally — a precondition on the `_eval_checkpoint` hook that the
specification does not state. -/
theorem eval_mean_empty_counter_aborts (poll : Nat → Int → Option (String × Int))
    (hook : String → Int → List (String × ℚ)) (s : EvalLoopState) (p : String) (i : Int)
    (hsome : poll s.poll_count s.prev_ckpt_ind = some (p, i)) :
    (hook p i = [] →
      counterMean (hook p i) = .error .zeroDivisionError ∧
      updateHistogram s.episode_success_histogram (hook p i) =
        s.episode_success_histogram ∧
      evalIter poll hook s = .error .zeroDivisionError ∧
      ∀ fuel, evalLoop poll hook (fuel + 1) s = .error .zeroDivisionError) ∧
    (hook p i ≠ [] → (evalIter poll hook s).isOk = true) := by
  constructor
  · intro hempty
    have he := evalIter_empty_counter_eq poll hook s p i hsome hempty
    refine ⟨by rw [hempty]; rfl, by rw [hempty]; rfl, he, fun fuel => ?_⟩
    show (match evalIter poll hook s with
      | .error e => (.error e : Except PyError (Option EvalLoopState))
      | .ok (.finished s1) => .ok (some s1)
      | .ok (.next s1) => evalLoop poll hook fuel s1) = _
    rw [he]
  · intro hne
    rw [evalIter_some_eq poll hook s p i hsome hne]
    rfl

/-- Witness for C9: a hook that returns an empty success counter
aborts the first iteration with `ZeroDivisionError`. -/
theorem eval_mean_empty_counter_aborts_witness :
    evalIter (fun _ _ => some ("ckpt.3.pth", 3)) (fun _ _ => []) evalInitState =
      .error .zeroDivisionError := by
  have h := eval_mean_empty_counter_aborts (fun _ _ => some ("ckpt.3.pth", 3))
    (fun _ _ => []) evalInitState "ckpt.3.pth" 3 rfl
  exact (h.1 rfl).2.2.1

end Habitat
